import Mathlib

/-!
# Verification of the LoRa message protocol (`lmp.py`)

Shallow embedding of `lmp.py`: the header/message/bundle codec, the
`textwrap.wrap`-based bundle fragmentation, the slot dispatch table, and the
pieces of the connection engine (frame classification, body timeout, device
address filter) that the specification claims talk about.

Python strings and byte strings are represented as lists of natural numbers
(`PyStr`): code points for strings, byte values for byte strings.  Python
integers are `Int`.  Fallible constructors return `Except`.
-/

/-- Equality of `Except` values is decidable when it is on both sides. -/
instance {ε α : Type} [DecidableEq ε] [DecidableEq α] : DecidableEq (Except ε α) := fun a b =>
  match a, b with
  | .ok x, .ok y =>
      if h : x = y then .isTrue (by rw [h]) else .isFalse (by intro hc; cases hc; exact h rfl)
  | .error x, .error y =>
      if h : x = y then .isTrue (by rw [h]) else .isFalse (by intro hc; cases hc; exact h rfl)
  | .ok _, .error _ => .isFalse (by intro hc; cases hc)
  | .error _, .ok _ => .isFalse (by intro hc; cases hc)

namespace LMP

/-- Python strings / byte strings as lists of code points / byte values. -/
abbrev PyStr := List Nat

/-- Exception kinds (subclasses of Python `Exception`) raised by `lmp.py`
itself or by the built-in operations it calls.  `nameError` is raised when
Python evaluates an undefined name (as happens on `EmptySlotErrorr` in
`SlotManager.unbind`); `emptySlot` is the `EmptySlotError` class that
`lmp.py` defines. -/
inductive PyExc where
  | indexError
  | typeError
  | valueError
  | nameError
  | syntaxError
  | valueNotInteger
  | valueOutOfByteRange
  | oversizedMessage
  | slotAlreadyUsed
  | emptySlot
  | taskNotCallable
deriving DecidableEq

/-- Python `BaseException`: ordinary exceptions plus `SystemExit` (raised by
`exit(...)` in `_5_Exit`).  An `except Exception` clause catches `.exc _`
but not `.systemExit _`. -/
inductive PyBaseExc where
  | exc (e : PyExc)
  | systemExit (status : Int)
deriving DecidableEq

/-- `Header`: the 4-byte frame header (`lmp.py`, class `Header`).  The four
fields are the entries of the `bytearray(4)` in order. -/
structure Header where
  length : Nat
  sender : Nat
  target : Nat
  code : Nat
deriving DecidableEq

/-- `Header.__init__`: assigning a value outside `0..255` into a `bytearray`
slot raises `ValueError`, which the constructor re-raises as
`ValueOutOfByteRange`.  (Non-integer values, re-raised as `ValueNotInteger`,
are outside this integer-typed model.) -/
def Header.make (length sender target actionCode : Int) : Except PyExc Header :=
  if 0 ≤ length ∧ length ≤ 255 ∧ 0 ≤ sender ∧ sender ≤ 255 ∧
      0 ≤ target ∧ target ≤ 255 ∧ 0 ≤ actionCode ∧ actionCode ≤ 255 then
    .ok ⟨length.toNat, sender.toNat, target.toNat, actionCode.toNat⟩
  else
    .error .valueOutOfByteRange

/-- `Header.value`: the underlying `bytearray`, i.e. the 4-byte wire form of
the header, in the order length, sender, target, actionCode. -/
def Header.value (h : Header) : PyStr :=
  [h.length, h.sender, h.target, h.code]

/-- All four header fields fit in one byte (true of every header the
constructor accepts). -/
abbrev Header.wf (h : Header) : Prop :=
  h.length ≤ 255 ∧ h.sender ≤ 255 ∧ h.target ≤ 255 ∧ h.code ≤ 255

/-- `Header.unpack(data)`: rebuild a header from the first four bytes of
`data` (`cls(data[0], data[1], data[2], data[3])`; indexing a byte string
shorter than four raises `IndexError`). -/
def Header.unpack (data : PyStr) : Except PyExc Header :=
  match data with
  | a :: b :: c :: d :: _ => Header.make (a : Int) (b : Int) (c : Int) (d : Int)
  | _ => .error .indexError

/-- `str.encode("ascii", "replace")`: code points above `0x7f` are replaced
by `?` (byte 63); the rest map to their own byte value. -/
def encodeAsciiReplace (s : PyStr) : PyStr :=
  s.map (fun c => if c ≤ 127 then c else 63)

/-- `bytes.decode("ascii", "replace")`: bytes above `0x7f` are replaced by
`U+FFFD` (65533); the rest map to their own code point. -/
def decodeAsciiReplace (b : PyStr) : PyStr :=
  b.map (fun c => if c ≤ 127 then c else 65533)

/-- `Message` (also covering its subclass `BrokenMessage`, distinguished by
the `broken` flag): a header plus the raw `_body` string captured at
construction time. -/
structure Message where
  header : Header
  bodyRaw : PyStr
  broken : Bool
deriving DecidableEq

/-- `Message.__init__`: reject bodies over 255 characters
(`OversizedMessageError`), then build the header from the declared length
(the body length when `messageLength` is `None`) and store the body together
with its `ascii`/`replace` encoding (the encoding is recomputed by
`Message.encode` below, so it is not a separate field here). -/
def Message.make (sender target actionCode : Int) (message : PyStr)
    (messageLength : Option Int) : Except PyExc Message :=
  if message.length > 255 then
    .error .oversizedMessage
  else
    (Header.make (messageLength.getD message.length) sender target actionCode).map
      (fun h => ⟨h, message, false⟩)

/-- `Message.joinHeaderWithBody(header, body)`:
`cls(header.value[1], header.value[2], header.value[3], body, header.value[0])`. -/
def Message.joinHeaderWithBody (h : Header) (body : PyStr) : Except PyExc Message :=
  Message.make h.sender h.target h.code body (some h.length)

/-- `BrokenMessage.joinHeaderWithBody`: same construction, but the object is
a `BrokenMessage`. -/
def BrokenMessage.joinHeaderWithBody (h : Header) (body : PyStr) : Except PyExc Message :=
  (Message.joinHeaderWithBody h body).map (fun m => { m with broken := true })

/-- `Message.body` / `BrokenMessage.body`: a broken message reports the raw
body right-padded with `%` (byte 37) up to the declared header length. -/
def Message.body (m : Message) : PyStr :=
  if m.broken then
    m.bodyRaw ++ List.replicate (m.header.length - m.bodyRaw.length) 37
  else
    m.bodyRaw

/-- `BrokenMessage.brokenLength`: the length of the raw (actually received)
body. -/
def Message.brokenLength (m : Message) : Nat :=
  m.bodyRaw.length

/-- `Sendable.encode`: header bytes followed by the encoded body bytes. -/
def Message.encode (m : Message) : PyStr :=
  m.header.value ++ encodeAsciiReplace m.bodyRaw

/-- The classification branch of `Connection._readMessage`: a frame whose
body is shorter than the header declared becomes a `BrokenMessage`,
otherwise a `Message`. -/
def classifyFrame (header : Header) (body : PyStr) : Except PyExc Message :=
  if body.length < header.length then
    BrokenMessage.joinHeaderWithBody header body
  else
    Message.joinHeaderWithBody header body

/-! ## Model of `textwrap.wrap` (Python standard library)

`Bundle.__init__` fragments its payload with `textwrap.wrap(message, 255)`.
The functions below follow `textwrap.TextWrapper` with its default options
(`expand_tabs`, `replace_whitespace`, `drop_whitespace` and
`break_long_words` all set, no indents, no `max_lines`), except that the
chunk splitter does not subdivide hyphenated words (the hyphen and em-dash
cases of `wordsep_re`); the model is exact for texts containing no
hyphen. -/

/-- The characters of `textwrap._whitespace` (`"\t\n\x0b\x0c\r "`). -/
def isWsChar (c : Nat) : Bool :=
  c == 9 || c == 10 || c == 11 || c == 12 || c == 13 || c == 32

/-- The code points removed by `str.strip()` (Python str whitespace). -/
def isStrippable (c : Nat) : Bool :=
  ([9, 10, 11, 12, 13, 28, 29, 30, 31, 32, 133, 160, 5760,
    8192, 8193, 8194, 8195, 8196, 8197, 8198, 8199, 8200, 8201, 8202,
    8232, 8233, 8239, 8287, 12288] : List Nat).contains c

/-- `str.expandtabs(8)`: a tab fills with spaces to the next multiple of 8
columns; newline and carriage return reset the column. -/
def expandTabsGo : PyStr → Nat → PyStr
  | [], _ => []
  | c :: rest, col =>
    if c = 9 then
      List.replicate (8 - col % 8) 32 ++ expandTabsGo rest (col + (8 - col % 8))
    else if c = 10 ∨ c = 13 then
      c :: expandTabsGo rest 0
    else
      c :: expandTabsGo rest (col + 1)

/-- `TextWrapper._munge_whitespace`: expand tabs, then translate each
whitespace character to a space. -/
def mungeWhitespace (text : PyStr) : PyStr :=
  (expandTabsGo text 0).map (fun c => if isWsChar c then 32 else c)

/-- Helper for `splitChunks`: `cur` is the reversed current run, whose
characters all have `isWsChar` status `b`. -/
def splitChunksGo (b : Bool) (cur : PyStr) : PyStr → List PyStr
  | [] => [cur.reverse]
  | c :: rest =>
    if isWsChar c = b then
      splitChunksGo b (c :: cur) rest
    else
      cur.reverse :: splitChunksGo (isWsChar c) [c] rest

/-- `TextWrapper._split` without the hyphenated-word cases: the text as the
list of its maximal whitespace and non-whitespace runs. -/
def splitChunks : PyStr → List PyStr
  | [] => []
  | c :: rest => splitChunksGo (isWsChar c) [c] rest

/-- `chunk.strip() == ""`: every character of the chunk is stripped. -/
def wsOnly (c : PyStr) : Bool := c.all isStrippable

/-- The inner packing loop of `TextWrapper._wrap_chunks`: move whole chunks
onto the current line while they fit within `width`.  Returns the chunks of
the line, the remaining chunks and the line length. -/
def fillLine (width : Nat) : List PyStr → Nat → List PyStr × List PyStr × Nat
  | [], curLen => ([], [], curLen)
  | c :: rest, curLen =>
    if curLen + c.length ≤ width then
      let p := fillLine width rest (curLen + c.length)
      (c :: p.1, p.2.1, p.2.2)
    else
      ([], c :: rest, curLen)

/-- `chunk.rfind("-", 0, stop)`: the index of the last hyphen strictly
before `stop`, if any. -/
def rfindHyphenAux : PyStr → Nat → Option Nat → Option Nat
  | [], _, best => best
  | c :: rest, i, best => rfindHyphenAux rest (i + 1) (if c = 45 then some i else best)

def rfindHyphen (c : PyStr) (stop : Nat) : Option Nat :=
  rfindHyphenAux (c.take stop) 0 none

/-- `TextWrapper._handle_long_word` with `break_long_words` set: break the
oversized chunk to fill the space left on the current line, preferring the
last hyphen inside that space.  Returns the piece for the line and the rest
of the chunk. -/
def handleLongWord (width : Nat) (chunk : PyStr) (curLen : Nat) : PyStr × PyStr :=
  let spaceLeft := if width < 1 then 1 else width - curLen
  let stop :=
    if spaceLeft < chunk.length then
      match rfindHyphen chunk spaceLeft with
      | some hy =>
        if 0 < hy ∧ (chunk.take hy).any (fun c => c != 45) then hy + 1 else spaceLeft
      | Option.none => spaceLeft
    else
      spaceLeft
  (chunk.take stop, chunk.drop stop)

/-- The outer loop of `TextWrapper._wrap_chunks` (no `max_lines`): drop a
leading whitespace chunk (except before the first line), pack a line, break
a long word if the next chunk exceeds the width, drop a trailing whitespace
chunk, and emit the line if it is nonempty.  The fuel argument only bounds
the number of iterations; `wrap` supplies enough for the loop to finish. -/
def wrapLoop (width : Nat) : Nat → List PyStr → List PyStr → List PyStr
  | 0, _, lines => lines
  | _ + 1, [], lines => lines
  | fuel + 1, c :: cs, lines =>
    let chunks := if wsOnly c && !lines.isEmpty then cs else c :: cs
    let p := fillLine width chunks 0
    let q : List PyStr × List PyStr :=
      match p.2.1 with
      | r :: rs =>
        if width < r.length then
          ((p.1 ++ [(handleLongWord width r p.2.2).1], (handleLongWord width r p.2.2).2 :: rs))
        else
          (p.1, r :: rs)
      | [] => (p.1, [])
    let curLine := if !q.1.isEmpty && wsOnly (q.1.getLastD []) then q.1.dropLast else q.1
    let lines2 := if curLine.isEmpty then lines else lines ++ [curLine.flatten]
    wrapLoop width fuel q.2 lines2

/-- `textwrap.wrap(text, width)` with the default options: munge the
whitespace, split into chunks, and run the wrapping loop. -/
def wrap (width : Nat) (text : PyStr) : List PyStr :=
  let chunks := splitChunks (mungeWhitespace text)
  wrapLoop width ((chunks.map List.length).sum + chunks.length + 1) chunks []

/-- Helper for `natToDecimal`: fuel-bounded digit extraction (the fuel
`n + 1` always suffices, see `natToDecimal_eq`). -/
def natToDecimalGo : Nat → Nat → PyStr
  | 0, _ => []
  | fuel + 1, n => if n < 10 then [48 + n] else natToDecimalGo fuel (n / 10) ++ [48 + n % 10]

/-- `str(n)` for a natural number: its decimal digits. -/
def natToDecimal (n : Nat) : PyStr :=
  natToDecimalGo (n + 1) n

/-- `Bundle`: the internal `Queue(Message)` holding the header message
followed by the fragment messages, in insertion order. -/
structure Bundle where
  data : List Message
deriving DecidableEq

/-- The fragment loop of `Bundle.__init__`: one `Message` per wrapped line,
in order, aborting on the first construction error. -/
def buildFragments (sender target code : Int) : List PyStr → Except PyExc (List Message)
  | [] => .ok []
  | line :: rest =>
    match Message.make sender target code line none with
    | .error e => .error e
    | .ok m =>
      match buildFragments sender target code rest with
      | .error e => .error e
      | .ok ms => .ok (m :: ms)

/-- `Bundle.__init__`: wrap the payload with `textwrap.wrap(message, 255)`,
reject more than 255 fragments (`OversizedMessageError`), then queue the
header message (action code `BUNDLE_HEADER_CODE = 2`, body
`str(len(messages))`) followed by one message per line, each with the
caller-supplied action code.  (`wrap 255 message` stands for the local
variable `messages` of the source.) -/
def Bundle.make (sender target code : Int) (message : PyStr) : Except PyExc Bundle :=
  if (wrap 255 message).length > 255 then
    .error .oversizedMessage
  else
    match Message.make sender target 2 (natToDecimal (wrap 255 message).length) none with
    | .error e => .error e
    | .ok header =>
      match buildFragments sender target code (wrap 255 message) with
      | .error e => .error e
      | .ok frags => .ok ⟨header :: frags⟩

/-- Consecutive 255-element pieces of a list: the shape `wrap 255` takes on
whitespace-free, hyphen-free text. -/
def chunks255 (l : PyStr) : List PyStr :=
  if h : l = [] then [] else l.take 255 :: chunks255 (l.drop 255)
termination_by l.length
decreasing_by
  have hl : l.length ≠ 0 := fun h0 => h (List.length_eq_zero.mp h0)
  simp only [List.length_drop]
  omega

/-- A character that the wrapping pipeline passes through untouched: not
whitespace (neither split on nor stripped) and not a hyphen, so that the
modelled splitter agrees with Python on it. -/
def plainChar (c : Nat) : Bool := !isStrippable c && c != 45

/-- `Bundle.body` (the spec's `fullMessage`): the concatenation of the
bodies of `data[1:]`, the fragments in insertion order. -/
def Bundle.body (b : Bundle) : PyStr :=
  ((b.data.drop 1).map Message.body).flatten

/-! ## Global state, dispatch table and connection pieces -/

/-- The module-level mutable configuration of `lmp.py` that the claims
touch: `TIMEOUT_MULTIPLIER` (read by `Connection._readBody`; modelled
exactly over `ℚ`) and `DEVICE_ID` (read by the read-loop address
filter). -/
structure GState where
  timeoutMultiplier : ℚ
  deviceID : Int
deriving DecidableEq

/-- The module constants `TIMEOUT_MULTIPLIER = 1.5` and `DEVICE_ID = 255`. -/
def initGState : GState := ⟨3 / 2, 255⟩

/-- Python literal values, as far as `_3_ApplyTimeOut` distinguishes them. -/
inductive PyLit where
  | none
  | bool (b : Bool)
  | int (n : Int)
  | float (q : ℚ)
  | str (s : PyStr)
deriving DecidableEq

/-- A nonempty run of decimal digits. -/
def allDigits (s : PyStr) : Bool :=
  !s.isEmpty && s.all (fun c => 48 ≤ c && c ≤ 57)

def digitsToNat (s : PyStr) : Nat :=
  s.foldl (fun acc c => acc * 10 + (c - 48)) 0

/-- Model of `ast.literal_eval` restricted to the literal shapes relevant
to `_3_ApplyTimeOut`: `None`, `True`, `False`, optionally signed integer
and simple decimal float literals, and simple quoted strings without
escapes; anything else fails (Python raises `ValueError`/`SyntaxError`
there). -/
def literalEval (s0 : PyStr) : Except PyExc PyLit :=
  let s := ((s0.dropWhile (fun c => isStrippable c)).reverse.dropWhile
    (fun c => isStrippable c)).reverse
  if s = [78, 111, 110, 101] then .ok .none
  else if s = [84, 114, 117, 101] then .ok (.bool true)
  else if s = [70, 97, 108, 115, 101] then .ok (.bool false)
  else
    let sign : Int := match s with
      | 45 :: _ => -1
      | _ => 1
    let t : PyStr := match s with
      | 45 :: rest => rest
      | 43 :: rest => rest
      | _ => s
    if allDigits t then .ok (.int (sign * digitsToNat t))
    else
      match t.splitOn 46 with
      | [ip, fp] =>
        if (allDigits ip || ip.isEmpty) && (allDigits fp || fp.isEmpty)
            && !(ip.isEmpty && fp.isEmpty) then
          .ok (.float (sign * ((digitsToNat ip : ℚ) + (digitsToNat fp : ℚ) / 10 ^ fp.length)))
        else
          .error .valueError
      | _ =>
        match s with
        | 39 :: rest =>
          if rest.getLastD 0 = 39 ∧ rest.length ≥ 1 ∧
              rest.dropLast.all (fun c => c != 39 && c != 92) then
            .ok (.str rest.dropLast)
          else
            .error .valueError
        | 34 :: rest =>
          if rest.getLastD 0 = 34 ∧ rest.length ≥ 1 ∧
              rest.dropLast.all (fun c => c != 34 && c != 92) then
            .ok (.str rest.dropLast)
          else
            .error .valueError
        | _ => .error .valueError

/-- `_3_ApplyTimeOut`: parse the body with `ast.literal_eval`; a parse
failure propagates.  For `None`, `float` or `int` values Python executes
`TIMEOUT_MULTIPLIER = tm` — which only binds a function-local name, leaving
the module-level `TIMEOUT_MULTIPLIER` untouched — and logs; the state is
therefore returned unchanged.  Any other value raises `TypeError`. -/
def applyTimeOut (g : GState) (body : PyStr) : Except PyBaseExc GState :=
  match literalEval body with
  | .error e => .error (.exc e)
  | .ok .none => .ok g
  | .ok (.float _) => .ok g
  | .ok (.int _) => .ok g
  | .ok _ => .error (.exc .typeError)

/-- A user-supplied handler: an identity (Python object identity), whether
it is callable, and the outcome of invoking it — `.ok` for a normal return,
`.error e` when it raises the exception `e`. -/
structure UserFunc where
  fid : Nat
  callable : Bool
  outcome : Except PyExc Unit
deriving DecidableEq

/-- A slot of the dispatch table: the shared placeholder lambda, one of the
pre-bound protocol handlers, or a user-bound handler. -/
inductive SlotVal where
  | placeholder
  | builtin (n : Nat)
  | user (f : UserFunc)
deriving DecidableEq

/-- `SlotManager`: the list `[self._placeholder for x in range(255)]`. -/
structure SlotManager where
  slots : List SlotVal
deriving DecidableEq

/-- `SlotManager.__init__`: 255 placeholder slots with `_1_BasicText`,
`_3_ApplyTimeOut` and `_5_Exit` pre-bound at codes 1, 3 and 5. -/
def SlotManager.fresh : SlotManager :=
  ⟨(((List.replicate 255 SlotVal.placeholder).set 1 (.builtin 1)).set 3
      (.builtin 3)).set 5 (.builtin 5)⟩

/-- `self._slots[slotnum]` (only reached behind the range checks). -/
def SlotManager.slotAt (sm : SlotManager) (slotnum : Int) : SlotVal :=
  sm.slots.getD slotnum.toNat .placeholder

/-- Run one slot: the placeholder does nothing; `_1_BasicText` only logs;
`_3_ApplyTimeOut` is `applyTimeOut`; `_5_Exit` calls `exit(5)`, raising
`SystemExit`; a user handler produces its recorded outcome. -/
def runSlot (v : SlotVal) (g : GState) (arg : PyStr) : Except PyBaseExc GState :=
  match v with
  | .placeholder => .ok g
  | .builtin 1 => .ok g
  | .builtin 3 => applyTimeOut g arg
  | .builtin 5 => .error (.systemExit 5)
  | .builtin _ => .ok g
  | .user f =>
    match f.outcome with
    | .ok _ => .ok g
    | .error e => .error (.exc e)

/-- `SlotManager.__call__`: a code outside `range(255)` raises `IndexError`;
otherwise the bound handler runs inside `try/except Exception`, so every
`Exception` it raises is logged and absorbed (`SystemExit`, raised by the
exit handler, is not an `Exception` and escapes). -/
def SlotManager.call (sm : SlotManager) (g : GState) (slotnum : Int) (arg : PyStr) :
    Except PyBaseExc GState :=
  if 0 ≤ slotnum ∧ slotnum < 255 then
    match runSlot (sm.slotAt slotnum) g arg with
    | .ok g2 => .ok g2
    | .error (.exc _) => .ok g
    | .error (.systemExit c) => .error (.systemExit c)
  else
    .error (.exc .indexError)

/-- `SlotManager.bind`: a code outside `range(32, 255)` raises `IndexError`;
a non-callable raises `TaskNotCallableError`; an occupied slot raises
`SlotAlreadyUsedError`; otherwise the handler is stored in the slot. -/
def SlotManager.bind (sm : SlotManager) (slotnum : Int) (func : UserFunc) :
    Except PyExc SlotManager :=
  if 32 ≤ slotnum ∧ slotnum < 255 then
    if func.callable then
      match sm.slotAt slotnum with
      | .placeholder => .ok ⟨sm.slots.set slotnum.toNat (.user func)⟩
      | _ => .error .slotAlreadyUsed
    else
      .error .taskNotCallable
  else
    .error .indexError

/-- `SlotManager.unbind`: a code outside `range(32, 255)` raises
`IndexError`.  On an empty slot the source executes
`raise EmptySlotErrorr(...)` — and since `EmptySlotErrorr` is an undefined
name (the class defined at the bottom of `lmp.py` is `EmptySlotError`),
Python raises `NameError` instead.  On an occupied slot the placeholder is
restored. -/
def SlotManager.unbind (sm : SlotManager) (slotnum : Int) : Except PyExc SlotManager :=
  if 32 ≤ slotnum ∧ slotnum < 255 then
    match sm.slotAt slotnum with
    | .placeholder => .error .nameError
    | _ => .ok ⟨sm.slots.set slotnum.toNat .placeholder⟩
  else
    .error .indexError

/-- `Connection._readBody`: the body read timeout
`(length * 8 / BIT_PER_SEC) * TIMEOUT_MULTIPLIER` with `BIT_PER_SEC = 300`,
modelled exactly over `ℚ` (the claim only concerns which multiplier is
read, not float rounding). -/
def bodyTimeout (g : GState) (length : Nat) : ℚ :=
  ((length : ℚ) * 8 / 300) * g.timeoutMultiplier

/-- Python runtime values, as far as the `type(num) != int` test of the
`Connection.deviceID` setter distinguishes them (`type(True)` is `bool`,
not `int`). -/
inductive PyVal where
  | int (n : Int)
  | bool (b : Bool)
  | float (q : ℚ)
  | str (s : PyStr)
  | noneVal
deriving DecidableEq

/-- The `Connection.deviceID` setter: a non-`int` value raises `TypeError`.
For an `int` the range test only evaluates `ValueError(...)` without
raising it, so every `int` — also one outside `0..255` — is stored into the
module-level `DEVICE_ID`. -/
def setDeviceID (g : GState) (num : PyVal) : Except PyExc GState :=
  match num with
  | .int n => .ok { g with deviceID := n }
  | _ => .error .typeError

/-- The address filter of `Connection._continousRead`:
`(sendable.target == DEVICE_ID) or (sendable.target == 0)`. -/
def acceptsTarget (g : GState) (target : Nat) : Bool :=
  ((target : Int) == g.deviceID) || (target == 0)

/-! ## Helper lemmas -/

/-- Decoding after encoding is the identity on strings made of code points
at most `0x7f` (the `ascii` codec with `replace` is lossy above that). -/
lemma decode_encode_ascii (s : PyStr) (h : ∀ c ∈ s, c ≤ 127) :
    decodeAsciiReplace (encodeAsciiReplace s) = s := by
  induction s with
  | nil => rfl
  | cons c cs ih =>
    have hc : c ≤ 127 := h c (List.mem_cons_self c cs)
    have ihs : decodeAsciiReplace (encodeAsciiReplace cs) = cs :=
      ih (fun x hx => h x (List.mem_cons_of_mem c hx))
    simp [encodeAsciiReplace, decodeAsciiReplace] at ihs ⊢
    exact ⟨by simp [hc], ihs⟩

/-- `Header.make` succeeds identically on the fields of a well-formed
header. -/
lemma Header.make_of_wf (h : Header) (hwf : h.wf) :
    Header.make h.length h.sender h.target h.code = .ok h := by
  obtain ⟨h1, h2, h3, h4⟩ := hwf
  unfold Header.make
  rw [if_pos (by refine ⟨?_, ?_, ?_, ?_, ?_, ?_, ?_, ?_⟩ <;> omega)]
  simp [Int.toNat_natCast]

/-- A body of at most 255 characters joined with a well-formed header is the
`Message` record with the original header and raw body. -/
lemma joinHeaderWithBody_ok (h : Header) (body : PyStr)
    (hwf : h.wf) (hble : body.length ≤ 255) :
    Message.joinHeaderWithBody h body = .ok ⟨h, body, false⟩ := by
  unfold Message.joinHeaderWithBody Message.make
  rw [if_neg (by omega)]
  simp [Header.make_of_wf h hwf, Except.map]

/-! ### Lemmas about `wrap` on plain (whitespace-free, hyphen-free) text -/

lemma plainChar_not_strippable {c : Nat} (h : plainChar c = true) : isStrippable c = false := by
  unfold plainChar at h
  simp only [Bool.and_eq_true, Bool.not_eq_true'] at h
  exact h.1

lemma plainChar_ne_hyphen {c : Nat} (h : plainChar c = true) : c ≠ 45 := by
  unfold plainChar at h
  simp only [Bool.and_eq_true, bne_iff_ne] at h
  exact h.2

lemma isWsChar_strippable {c : Nat} (h : isWsChar c = true) : isStrippable c = true := by
  unfold isWsChar at h
  simp only [Bool.or_eq_true, beq_iff_eq] at h
  rcases h with ((((h | h) | h) | h) | h) | h <;> subst h <;> rfl

lemma plainChar_not_ws {c : Nat} (h : plainChar c = true) : isWsChar c = false := by
  by_contra hw
  rw [Bool.not_eq_false] at hw
  have hcontra := isWsChar_strippable hw
  rw [plainChar_not_strippable h] at hcontra
  exact Bool.false_ne_true hcontra

/-- `expandtabs` does not touch text without tabs, newlines or carriage
returns. -/
lemma expandTabsGo_plain (s : PyStr) (hs : ∀ c ∈ s, plainChar c = true) :
    ∀ col, expandTabsGo s col = s := by
  induction s with
  | nil => intro _; rfl
  | cons c cs ih =>
    intro col
    have hc := hs c (List.mem_cons_self c cs)
    have hst := plainChar_not_strippable hc
    have h9 : c ≠ 9 := fun h => by rw [h] at hst; exact absurd hst (by decide)
    have h10 : c ≠ 10 := fun h => by rw [h] at hst; exact absurd hst (by decide)
    have h13 : c ≠ 13 := fun h => by rw [h] at hst; exact absurd hst (by decide)
    unfold expandTabsGo
    rw [if_neg h9, if_neg (by tauto)]
    rw [ih (fun x hx => hs x (List.mem_cons_of_mem c hx)) (col + 1)]

/-- `_munge_whitespace` is the identity on plain text. -/
lemma mungeWhitespace_plain (s : PyStr) (hs : ∀ c ∈ s, plainChar c = true) :
    mungeWhitespace s = s := by
  unfold mungeWhitespace
  rw [expandTabsGo_plain s hs 0]
  induction s with
  | nil => rfl
  | cons c cs ih =>
    have hc := hs c (List.mem_cons_self c cs)
    have htail := ih (fun x hx => hs x (List.mem_cons_of_mem c hx))
    simp only [List.map_cons, List.cons.injEq]
    exact ⟨by rw [plainChar_not_ws hc]; rfl, htail⟩

lemma splitChunksGo_all (b : Bool) (l : PyStr) (hl : ∀ c ∈ l, isWsChar c = b) :
    ∀ cur, splitChunksGo b cur l = [cur.reverse ++ l] := by
  induction l with
  | nil => intro cur; simp [splitChunksGo]
  | cons c cs ih =>
    intro cur
    have hc : isWsChar c = b := hl c (List.mem_cons_self c cs)
    rw [splitChunksGo, if_pos hc, ih (fun x hx => hl x (List.mem_cons_of_mem c hx)) (c :: cur)]
    simp

/-- A nonempty run of non-whitespace characters is a single chunk. -/
lemma splitChunks_single (s : PyStr) (hne : s ≠ []) (hs : ∀ c ∈ s, isWsChar c = false) :
    splitChunks s = [s] := by
  cases s with
  | nil => exact absurd rfl hne
  | cons c cs =>
    have hc : isWsChar c = false := hs c (List.mem_cons_self c cs)
    show splitChunksGo (isWsChar c) [c] cs = [c :: cs]
    rw [hc, splitChunksGo_all false cs (fun x hx => hs x (List.mem_cons_of_mem c hx)) [c]]
    rfl

lemma rfindHyphenAux_none (l : PyStr) (hl : ∀ c ∈ l, c ≠ 45) :
    ∀ i, rfindHyphenAux l i none = none := by
  induction l with
  | nil => intro _; rfl
  | cons c cs ih =>
    intro i
    have hc : c ≠ 45 := hl c (List.mem_cons_self c cs)
    simp only [rfindHyphenAux, if_neg hc]
    exact ih (fun x hx => hl x (List.mem_cons_of_mem c hx)) (i + 1)

lemma rfindHyphen_none (w : PyStr) (stop : Nat) (hw : ∀ c ∈ w, c ≠ 45) :
    rfindHyphen w stop = none :=
  rfindHyphenAux_none (w.take stop) (fun c hc => hw c (List.take_subset stop w hc)) 0

lemma wsOnly_plain (w : PyStr) (hne : w ≠ []) (hw : ∀ c ∈ w, plainChar c = true) :
    wsOnly w = false := by
  cases w with
  | nil => exact absurd rfl hne
  | cons c cs =>
    have hc := plainChar_not_strippable (hw c (List.mem_cons_self c cs))
    simp [wsOnly, hc]

/-- `wrapLoop width n [] lines = lines`. -/
lemma wrapLoop_nil (width n : Nat) (lines : List PyStr) :
    wrapLoop width n [] lines = lines := by
  cases n <;> rfl

lemma chunks255_nil : chunks255 [] = [] := by
  rw [chunks255]
  simp

lemma chunks255_short (w : PyStr) (hne : w ≠ []) (hle : w.length ≤ 255) :
    chunks255 w = [w] := by
  rw [chunks255, dif_neg hne, List.take_of_length_le hle,
    List.drop_eq_nil_of_le hle, chunks255_nil]

lemma chunks255_long (w : PyStr) (hgt : 255 < w.length) :
    chunks255 w = w.take 255 :: chunks255 (w.drop 255) := by
  rw [chunks255, dif_neg (by intro h; rw [h] at hgt; simp at hgt)]

lemma chunks255_flatten (l : PyStr) : (chunks255 l).flatten = l := by
  induction l using chunks255.induct with
  | case1 => rw [chunks255_nil]; rfl
  | case2 l hl ih =>
    rw [chunks255, dif_neg hl, List.flatten_cons, ih, List.take_append_drop]

lemma chunks255_length_le (l : PyStr) : ∀ n, l.length ≤ n * 255 → (chunks255 l).length ≤ n := by
  induction l using chunks255.induct with
  | case1 =>
    intro n _
    rw [chunks255_nil]
    simp
  | case2 l hl ih =>
    intro n hn
    rw [chunks255, dif_neg hl, List.length_cons]
    have hpos : l.length ≠ 0 := fun h0 => hl (List.length_eq_zero.mp h0)
    cases n with
    | zero => omega
    | succ m =>
      have := ih m (by simp only [List.length_drop]; omega)
      omega

lemma chunks255_mem_length (l : PyStr) : ∀ c ∈ chunks255 l, c.length ≤ 255 := by
  induction l using chunks255.induct with
  | case1 =>
    rw [chunks255_nil]
    intro c hc
    exact absurd hc (List.not_mem_nil c)
  | case2 l hl ih =>
    rw [chunks255, dif_neg hl]
    intro c hc
    rcases List.mem_cons.mp hc with h | h
    · rw [h]
      simp
    · exact ih c h

/-- The wrapping loop on one plain chunk emits exactly its 255-character
pieces. -/
lemma wrapLoop_single_plain (fuel : Nat) :
    ∀ (w : PyStr) (acc : List PyStr), w ≠ [] → (∀ c ∈ w, plainChar c = true) →
      w.length ≤ fuel * 255 →
      wrapLoop 255 fuel [w] acc = acc ++ chunks255 w := by
  induction fuel with
  | zero =>
    intro w acc hne hw hlen
    exact absurd (List.length_eq_zero.mp (by omega)) hne
  | succ m ih =>
    intro w acc hne hw hlen
    have hws : wsOnly w = false := wsOnly_plain w hne hw
    rw [wrapLoop]
    by_cases hle : w.length ≤ 255
    · have hfill : fillLine 255 [w] 0 = ([w], [], w.length) := by
        simp [fillLine, hle]
      simp [hws, hfill, wrapLoop_nil, chunks255_short w hne hle]
    · have hfill : fillLine 255 [w] 0 = ([], [w], 0) := by
        simp [fillLine, hle]
      have hrf : rfindHyphen w 255 = none :=
        rfindHyphen_none w 255 (fun c hc => plainChar_ne_hyphen (hw c hc))
      have hhlw : handleLongWord 255 w 0 = (w.take 255, w.drop 255) := by
        unfold handleLongWord
        simp [hrf]
      have hdne : w.drop 255 ≠ [] := by
        intro h0
        have h1 := congrArg List.length h0
        simp only [List.length_drop, List.length_nil] at h1
        omega
      have hplain2 : ∀ c ∈ w.drop 255, plainChar c = true :=
        fun c hc => hw c (List.drop_subset 255 w hc)
      have hlen2 : (w.drop 255).length ≤ m * 255 := by
        simp only [List.length_drop]
        omega
      have htake_ne : w.take 255 ≠ [] := by
        intro h0
        have h1 := congrArg List.length h0
        simp only [List.length_take, List.length_nil] at h1
        omega
      have hws_take : wsOnly (w.take 255) = false :=
        wsOnly_plain _ htake_ne (fun c hc => hw c (List.take_subset 255 w hc))
      have hgt : 255 < w.length := by omega
      simp [hws, hfill, hhlw, hws_take, hgt]
      rw [ih (w.drop 255) (acc ++ [w.take 255]) hdne hplain2 hlen2, chunks255_long w hgt]
      simp

/-- `textwrap.wrap(text, 255)` on nonempty plain text is the list of its
consecutive 255-character pieces. -/
lemma wrap_plain (text : PyStr) (hne : text ≠ []) (hp : ∀ c ∈ text, plainChar c = true) :
    wrap 255 text = chunks255 text := by
  simp only [wrap]
  rw [mungeWhitespace_plain text hp,
    splitChunks_single text hne (fun c hc => plainChar_not_ws (hp c hc))]
  have hfuel : ([text].map List.length).sum + [text].length + 1 = text.length + 2 := by
    simp
  rw [hfuel, wrapLoop_single_plain (text.length + 2) text [] hne hp (by omega)]
  simp

/-- The fuel `n + 1` given by `natToDecimal` always suffices. -/
lemma natToDecimalGo_eq (fuel : Nat) : ∀ n, n < fuel → natToDecimalGo fuel n = natToDecimal n := by
  induction fuel using Nat.strong_induction_on with
  | _ fuel ih =>
    intro n hn
    obtain ⟨m, rfl⟩ : ∃ m, fuel = m + 1 := ⟨fuel - 1, by omega⟩
    unfold natToDecimal
    by_cases h10 : n < 10
    · rw [natToDecimalGo, if_pos h10, natToDecimalGo, if_pos h10]
    · have hdiv : n / 10 < n := Nat.div_lt_self (by omega) (by omega)
      rw [natToDecimalGo, if_neg h10]
      conv_rhs => rw [natToDecimalGo, if_neg h10]
      rw [ih m (by omega) (n / 10) (by omega)]
      rw [ih n (by omega) (n / 10) hdiv]

/-- The recurrence `str(n)` satisfies. -/
lemma natToDecimal_eq (n : Nat) :
    natToDecimal n = if n < 10 then [48 + n] else natToDecimal (n / 10) ++ [48 + n % 10] := by
  by_cases h10 : n < 10
  · rw [natToDecimal, natToDecimalGo, if_pos h10, if_pos h10]
  · have hdiv : n / 10 < n := Nat.div_lt_self (by omega) (by omega)
    rw [natToDecimal, natToDecimalGo, if_neg h10, if_neg h10, natToDecimalGo_eq n (n / 10) hdiv]

lemma natToDecimal_le9 (n : Nat) (h : n ≤ 9) : (natToDecimal n).length = 1 := by
  rw [natToDecimal_eq, if_pos (by omega)]
  rfl

lemma natToDecimal_le99 (n : Nat) (h : n ≤ 99) : (natToDecimal n).length ≤ 2 := by
  rw [natToDecimal_eq]
  by_cases h10 : n < 10
  · rw [if_pos h10]
    simp
  · rw [if_neg h10]
    rw [List.length_append, natToDecimal_le9 (n / 10) (by omega)]
    simp

lemma natToDecimal_le999 (n : Nat) (h : n ≤ 999) : (natToDecimal n).length ≤ 3 := by
  rw [natToDecimal_eq]
  by_cases h10 : n < 10
  · rw [if_pos h10]
    simp
  · rw [if_neg h10]
    rw [List.length_append]
    have := natToDecimal_le99 (n / 10) (by omega)
    simp
    omega

/-- The fragment loop succeeds on lines of at most 255 characters, building
one plain `Message` per line. -/
lemma buildFragments_ok (sender target code : Int)
    (hs : 0 ≤ sender ∧ sender ≤ 255) (ht : 0 ≤ target ∧ target ≤ 255)
    (hc : 0 ≤ code ∧ code ≤ 255) :
    ∀ lines : List PyStr, (∀ l ∈ lines, l.length ≤ 255) →
      buildFragments sender target code lines
        = .ok (lines.map (fun line =>
            ⟨⟨line.length, sender.toNat, target.toNat, code.toNat⟩, line, false⟩)) := by
  intro lines
  induction lines with
  | nil => intro _; rfl
  | cons l ls ih =>
    intro hl
    have hll := hl l (List.mem_cons_self l ls)
    have hmk : Message.make sender target code l none
        = .ok ⟨⟨l.length, sender.toNat, target.toNat, code.toNat⟩, l, false⟩ := by
      unfold Message.make
      rw [if_neg (by omega)]
      simp only [Option.getD_none]
      unfold Header.make
      rw [if_pos (by refine ⟨?_, ?_, ?_, ?_, ?_, ?_, ?_, ?_⟩ <;> omega)]
      simp [Int.toNat_natCast, Except.map]
    simp only [buildFragments, hmk, ih (fun x hx => hl x (List.mem_cons_of_mem l hx)),
      List.map_cons]

/-- The reported bodies of plain fragment messages are their lines. -/
lemma map_body_plain (lines : List PyStr) (sn tn cn : Nat) :
    (lines.map (fun line =>
        (⟨⟨line.length, sn, tn, cn⟩, line, false⟩ : Message))).map Message.body = lines := by
  induction lines with
  | nil => rfl
  | cons l ls ih => simp [Message.body, ih]

/-- `SlotManager.fresh` has 255 slots. -/
lemma SlotManager.fresh_length : SlotManager.fresh.slots.length = 255 := by
  unfold SlotManager.fresh
  simp only [List.length_set, List.length_replicate]

/-- Every user-bindable code (32–254) of a fresh manager holds the
placeholder. -/
lemma SlotManager.fresh_slotAt (code : Int) (h32 : 32 ≤ code) (h255 : code < 255) :
    SlotManager.fresh.slotAt code = .placeholder := by
  unfold SlotManager.fresh SlotManager.slotAt
  have hlt : code.toNat < 255 := by omega
  rw [List.getD_eq_getElem?_getD,
    List.getElem?_set_ne (show (5 : Nat) ≠ code.toNat by omega),
    List.getElem?_set_ne (show (3 : Nat) ≠ code.toNat by omega),
    List.getElem?_set_ne (show (1 : Nat) ≠ code.toNat by omega),
    List.getElem?_replicate, if_pos hlt, Option.getD_some]

/-- Reading back the slot just written. -/
lemma slotAt_set_self (sm : SlotManager) (code : Int) (v : SlotVal)
    (hlt : code.toNat < sm.slots.length) :
    (SlotManager.mk (sm.slots.set code.toNat v)).slotAt code = v := by
  unfold SlotManager.slotAt
  rw [List.getD_eq_getElem?_getD, List.getElem?_set_self hlt, Option.getD_some]

/-- Binding a callable into a fresh user slot stores it there. -/
lemma SlotManager.bind_fresh (code : Int) (f : UserFunc) (h32 : 32 ≤ code)
    (h255 : code < 255) (hc : f.callable = true) :
    SlotManager.fresh.bind code f
      = .ok ⟨SlotManager.fresh.slots.set code.toNat (.user f)⟩ := by
  unfold SlotManager.bind
  rw [if_pos ⟨h32, h255⟩, if_pos hc, SlotManager.fresh_slotAt code h32 h255]

/-! ## Claim theorems: codec -/

/-- C1: for every tuple `(length, sender, target, actionCode)` of integers
in 0–255, constructing a `Header`, encoding it to its 4-byte wire form
(`Header.value`) and decoding those bytes with `Header.unpack` yields a
header whose four fields equal the original values; the wire form is
exactly the 4 bytes in the order length, sender, target, actionCode. -/
theorem header_roundtrip (l s t a : Int)
    (hl : 0 ≤ l ∧ l ≤ 255) (hs : 0 ≤ s ∧ s ≤ 255)
    (ht : 0 ≤ t ∧ t ≤ 255) (ha : 0 ≤ a ∧ a ≤ 255) :
    (Header.make l s t a).map Header.value = .ok [l.toNat, s.toNat, t.toNat, a.toNat]
    ∧ (Header.make l s t a).bind (fun h => Header.unpack h.value) = Header.make l s t a
    ∧ (Header.make l s t a).map
        (fun h => ((h.length : Int), (h.sender : Int), (h.target : Int), (h.code : Int)))
      = .ok (l, s, t, a) := by
  have hmk : Header.make l s t a = .ok ⟨l.toNat, s.toNat, t.toNat, a.toNat⟩ := by
    unfold Header.make
    rw [if_pos (by refine ⟨?_, ?_, ?_, ?_, ?_, ?_, ?_, ?_⟩ <;> omega)]
  refine ⟨?_, ?_, ?_⟩
  · rw [hmk]; rfl
  · rw [hmk]
    exact Header.make_of_wf ⟨l.toNat, s.toNat, t.toNat, a.toNat⟩
      ⟨show l.toNat ≤ 255 by omega, show s.toNat ≤ 255 by omega,
        show t.toNat ≤ 255 by omega, show a.toNat ≤ 255 by omega⟩
  · rw [hmk]
    simp [Except.map, Int.toNat_of_nonneg hl.1, Int.toNat_of_nonneg hs.1,
      Int.toNat_of_nonneg ht.1, Int.toNat_of_nonneg ha.1]

/-- Witness for `header_roundtrip` at `(2, 1, 255, 1)` (the spec scenario
header for body `"hi"`). -/
theorem header_roundtrip_witness :
    (Header.make 2 1 255 1).map Header.value = .ok [2, 1, 255, 1]
    ∧ (Header.make 2 1 255 1).bind (fun h => Header.unpack h.value) = Header.make 2 1 255 1
    ∧ (Header.make 2 1 255 1).map
        (fun h => ((h.length : Int), (h.sender : Int), (h.target : Int), (h.code : Int)))
      = .ok (2, 1, 255, 1) :=
  header_roundtrip 2 1 255 1 (by decide) (by decide) (by decide) (by decide)

/-- C2 (amended): for every body of at most 255 ASCII characters (code
points at most `0x7f`) and every header whose length equals the body
length, `Message.joinHeaderWithBody`, encoding, and decoding back (header
via `Header.unpack`, body via the single-byte text decoding) yields the
same header fields and the same body text.  The ASCII restriction is forced
by `message_roundtrip_cex`: the `ascii`/`replace` codec is lossy above
`0x7f`. -/
theorem message_roundtrip (h : Header) (body : PyStr)
    (hwf : h.wf) (hlen : h.length = body.length)
    (hascii : ∀ c ∈ body, c ≤ 127) :
    (Message.joinHeaderWithBody h body).map
        (fun m => (Header.unpack (m.encode.take 4), decodeAsciiReplace (m.encode.drop 4)))
      = .ok (.ok h, body) := by
  have hble : body.length ≤ 255 := hlen ▸ hwf.1
  rw [joinHeaderWithBody_ok h body hwf hble]
  have htake : (Message.encode ⟨h, body, false⟩).take 4
      = [h.length, h.sender, h.target, h.code] := rfl
  have hdrop : (Message.encode ⟨h, body, false⟩).drop 4 = encodeAsciiReplace body := rfl
  have hup : Header.unpack [h.length, h.sender, h.target, h.code] = .ok h :=
    Header.make_of_wf h hwf
  simp only [Except.map, htake, hdrop, hup, decode_encode_ascii body hascii]

/-- Witness for `message_roundtrip`: the spec scenario, header `[2, 1, 255,
1]` with body `"hi"`. -/
theorem message_roundtrip_witness :
    (Message.joinHeaderWithBody ⟨2, 1, 255, 1⟩ [104, 105]).map
        (fun m => (Header.unpack (m.encode.take 4), decodeAsciiReplace (m.encode.drop 4)))
      = .ok (.ok ⟨2, 1, 255, 1⟩, [104, 105]) :=
  message_roundtrip ⟨2, 1, 255, 1⟩ [104, 105] (by decide) (by decide) (by decide)

/-- C2 counterexample: with the one-character body `"é"` (code point 233)
and a matching header, encoding and decoding returns the body `"?"` (63),
not the original text, so the round-trip claim fails for non-ASCII
bodies. -/
theorem message_roundtrip_cex :
    (Message.joinHeaderWithBody ⟨1, 1, 2, 3⟩ [233]).map
        (fun m => (Header.unpack (m.encode.take 4), decodeAsciiReplace (m.encode.drop 4)))
      = .ok (.ok ⟨1, 1, 2, 3⟩, [63])
    ∧ ¬ ((Message.joinHeaderWithBody ⟨1, 1, 2, 3⟩ [233]).map
        (fun m => (Header.unpack (m.encode.take 4), decodeAsciiReplace (m.encode.drop 4)))
      = .ok (.ok ⟨1, 1, 2, 3⟩, [233])) :=
  ⟨by decide, by decide⟩

/-- C4: a received body shorter than the declared header length is
classified as a `BrokenMessage` (not a well-formed `Message`);
`brokenLength` is the received length, and the reported body is the
received characters right-padded with the filler `%` (37) to exactly the
declared length, so its length equals `header.length`. -/
theorem broken_frame_classification (h : Header) (body : PyStr)
    (hwf : h.wf) (hshort : body.length < h.length) :
    (classifyFrame h body).map
        (fun m => (m.broken, m.brokenLength, m.body, m.body.length))
      = .ok (true, body.length,
          body ++ List.replicate (h.length - body.length) 37, h.length) := by
  have hble : body.length ≤ 255 := by
    have := hwf.1
    omega
  unfold classifyFrame
  rw [if_pos hshort]
  unfold BrokenMessage.joinHeaderWithBody
  rw [joinHeaderWithBody_ok h body hwf hble]
  simp only [Except.map, Message.body, Message.brokenLength, if_true]
  simp only [List.length_append, List.length_replicate]
  have hlen2 : body.length + (h.length - body.length) = h.length := by omega
  rw [hlen2]

/-- Witness for `broken_frame_classification`: a header declaring 10 with 6
received characters reports a body of length 10 (6 real + 4 filler). -/
theorem broken_frame_classification_witness :
    (classifyFrame ⟨10, 1, 2, 7⟩ [104, 101, 108, 108, 111, 33]).map
        (fun m => (m.broken, m.brokenLength, m.body, m.body.length))
      = .ok (true, 6, [104, 101, 108, 108, 111, 33] ++ List.replicate 4 37, 10) :=
  broken_frame_classification ⟨10, 1, 2, 7⟩ [104, 101, 108, 108, 111, 33]
    (by decide) (by decide)

/-- C9: constructing a `Message` with a 256-character body fails with
`OversizedMessageError`, and constructing one with a 255-character body
succeeds, with the header length field equal to the body length. -/
theorem message_size_boundary (sender target actionCode : Int) (b256 b255 : PyStr)
    (hs : 0 ≤ sender ∧ sender ≤ 255) (ht : 0 ≤ target ∧ target ≤ 255)
    (ha : 0 ≤ actionCode ∧ actionCode ≤ 255)
    (h256 : b256.length = 256) (h255 : b255.length = 255) :
    Message.make sender target actionCode b256 none = .error .oversizedMessage
    ∧ (Message.make sender target actionCode b255 none).map
        (fun m => (m.header.length, m.bodyRaw.length)) = .ok (255, 255) := by
  constructor
  · unfold Message.make
    rw [if_pos (by omega)]
  · unfold Message.make
    rw [if_neg (by omega)]
    simp only [Option.getD_none, h255]
    have hmk : Header.make ((255 : Nat) : Int) sender target actionCode
        = .ok ⟨255, sender.toNat, target.toNat, actionCode.toNat⟩ := by
      unfold Header.make
      rw [if_pos (by refine ⟨?_, ?_, ?_, ?_, ?_, ?_, ?_, ?_⟩ <;> omega)]
      simp
    rw [hmk]
    simp [Except.map, h255]

/-- Witness for `message_size_boundary` at bodies of 256 and 255 letters
`a`. -/
theorem message_size_boundary_witness :
    Message.make 1 2 40 (List.replicate 256 97) none = .error .oversizedMessage
    ∧ (Message.make 1 2 40 (List.replicate 255 97) none).map
        (fun m => (m.header.length, m.bodyRaw.length)) = .ok (255, 255) :=
  message_size_boundary 1 2 40 (List.replicate 256 97) (List.replicate 255 97)
    (by decide) (by decide) (by decide)
    (List.length_replicate 256 97) (List.length_replicate 255 97)

/-- C3 (amended): for every plain text — no whitespace-like and no hyphen
characters — of length L with 255 < L ≤ 65025, and byte-valued sender,
target and action code, building the `Bundle` succeeds and its body (the
spec's `fullMessage`: the concatenation of the fragment bodies in insertion
order) equals the original text.  The plain-character restriction is forced
by `bundle_fullMessage_cex`: `textwrap.wrap` drops and normalizes
whitespace, so the unrestricted claim fails. -/
theorem bundle_fullMessage (sender target code : Int) (text : PyStr)
    (hs : 0 ≤ sender ∧ sender ≤ 255) (ht : 0 ≤ target ∧ target ≤ 255)
    (hc : 0 ≤ code ∧ code ≤ 255)
    (hlen : 255 < text.length ∧ text.length ≤ 65025)
    (hplain : ∀ ch ∈ text, plainChar ch = true) :
    (Bundle.make sender target code text).map Bundle.body = .ok text := by
  have hne : text ≠ [] := by
    intro h0
    rw [h0] at hlen
    simp at hlen
  have hwrap : wrap 255 text = chunks255 text := wrap_plain text hne hplain
  have hcnt : (chunks255 text).length ≤ 255 :=
    chunks255_length_le text 255 (by omega)
  unfold Bundle.make
  rw [hwrap, if_neg (by omega)]
  have hnl : (natToDecimal (chunks255 text).length).length ≤ 3 :=
    natToDecimal_le999 _ (by omega)
  have hhdr : Message.make sender target 2 (natToDecimal (chunks255 text).length) none
      = .ok ⟨⟨(natToDecimal (chunks255 text).length).length, sender.toNat, target.toNat, 2⟩,
          natToDecimal (chunks255 text).length, false⟩ := by
    unfold Message.make
    rw [if_neg (by omega)]
    simp only [Option.getD_none]
    unfold Header.make
    rw [if_pos (by refine ⟨?_, ?_, ?_, ?_, ?_, ?_, ?_, ?_⟩ <;> omega)]
    simp [Int.toNat_natCast, Except.map]
  rw [hhdr, buildFragments_ok sender target code hs ht hc (chunks255 text)
    (chunks255_mem_length text)]
  simp only [Except.map]
  unfold Bundle.body
  simp only [List.drop_succ_cons, List.drop_zero]
  rw [map_body_plain, chunks255_flatten]

/-- Witness for `bundle_fullMessage`: 256 letters `a`, split into a
255-letter and a 1-letter fragment and reassembled. -/
theorem bundle_fullMessage_witness :
    (Bundle.make 1 2 40 (List.replicate 256 97)).map Bundle.body
      = .ok (List.replicate 256 97) :=
  bundle_fullMessage 1 2 40 (List.replicate 256 97) (by decide) (by decide) (by decide)
    (by rw [List.length_replicate]; omega)
    (fun ch hch => by rw [List.eq_of_mem_replicate hch]; decide)

set_option maxRecDepth 100000 in
/-- C3 counterexample: the 257-character text `"a"*255 ++ " b"` wraps into
the fragments `"a"*255` and `"b"` — `textwrap.wrap` drops the space at the
line break — so the reassembled body differs from the original text and
the unrestricted claim fails. -/
theorem bundle_fullMessage_cex :
    (Bundle.make 1 2 40 (List.replicate 255 97 ++ [32, 98])).map Bundle.body
      = .ok (List.replicate 255 97 ++ [98])
    ∧ (Bundle.make 1 2 40 (List.replicate 255 97 ++ [32, 98])).map Bundle.body
      ≠ .ok (List.replicate 255 97 ++ [32, 98]) := by
  constructor
  · decide
  · decide

/-! ## Claim theorems: dispatch table, handlers, connection -/

/-- C5: for every code in 0–254 with a user handler bound there, dispatch
(`SlotManager.__call__`) invokes the handler and returns normally whatever
its outcome — also when it raises an arbitrary exception, which is caught
at the dispatch boundary; for every code outside 0–254 dispatch fails with
`IndexError`. -/
theorem dispatch_fault_isolation (sm : SlotManager) (g : GState) (code : Int)
    (arg : PyStr) (f : UserFunc) :
    ((0 ≤ code ∧ code ≤ 254) → sm.slotAt code = .user f → sm.call g code arg = .ok g)
    ∧ ((code < 0 ∨ 254 < code) → sm.call g code arg = .error (.exc .indexError)) := by
  constructor
  · intro hr hat
    unfold SlotManager.call
    rw [if_pos ⟨hr.1, by omega⟩, hat]
    rcases f with ⟨fid, fc, fo⟩
    cases fo <;> rfl
  · intro hr
    unfold SlotManager.call
    rw [if_neg (by omega)]

/-- Witness for `dispatch_fault_isolation`: a handler that raises
`TypeError` at code 40, and the out-of-range code 300. -/
theorem dispatch_fault_isolation_witness :
    (SlotManager.mk (SlotManager.fresh.slots.set 40 (.user ⟨10, true, .error .typeError⟩))).call
        initGState 40 [] = .ok initGState
    ∧ SlotManager.fresh.call initGState 300 [] = .error (.exc .indexError) :=
  ⟨(dispatch_fault_isolation
        (SlotManager.mk (SlotManager.fresh.slots.set 40 (.user ⟨10, true, .error .typeError⟩)))
        initGState 40 [] ⟨10, true, .error .typeError⟩).1 (by decide) (by decide),
    (dispatch_fault_isolation SlotManager.fresh initGState 300 [] ⟨0, true, .ok ()⟩).2
      (by decide)⟩

/-- C6: on a fresh table, `bind` at a user code (32–254) with a callable
succeeds and stores the handler; a second `bind` at the same code without
an intervening `unbind` fails with `SlotAlreadyUsedError` (the state is
unchanged, `bind` being pure on failure); after `unbind` a new `bind`
succeeds; `bind` fails with `IndexError` for any code outside 32–254 and
with `TaskNotCallableError` for any non-callable handler. -/
theorem bind_unbind_lifecycle (code code2 : Int) (f g2 bad : UserFunc)
    (hcode : 32 ≤ code ∧ code ≤ 254) (hf : f.callable = true)
    (hg : g2.callable = true) (hbad : bad.callable = false)
    (hcode2 : code2 < 32 ∨ 254 < code2) :
    (SlotManager.fresh.bind code f).map (fun sm => sm.slotAt code) = .ok (.user f)
    ∧ (SlotManager.fresh.bind code f).bind (fun sm => sm.bind code g2)
        = .error .slotAlreadyUsed
    ∧ (((SlotManager.fresh.bind code f).bind (fun sm => sm.unbind code)).bind
        (fun sm => sm.bind code g2)).map (fun sm => sm.slotAt code) = .ok (.user g2)
    ∧ SlotManager.fresh.bind code2 f = .error .indexError
    ∧ SlotManager.fresh.bind code bad = .error .taskNotCallable := by
  have h32 : 32 ≤ code := hcode.1
  have h255 : code < 255 := by omega
  have hb1 := SlotManager.bind_fresh code f h32 h255 hf
  have hlt1 : code.toNat < SlotManager.fresh.slots.length := by
    rw [SlotManager.fresh_length]
    omega
  have hat1 : (SlotManager.mk (SlotManager.fresh.slots.set code.toNat (.user f))).slotAt code
      = .user f := slotAt_set_self SlotManager.fresh code (.user f) hlt1
  have hlt2 : code.toNat < (SlotManager.fresh.slots.set code.toNat (.user f)).length := by
    simp only [List.length_set]
    exact hlt1
  have hat2 : (SlotManager.mk ((SlotManager.fresh.slots.set code.toNat (.user f)).set
      code.toNat SlotVal.placeholder)).slotAt code = .placeholder :=
    slotAt_set_self ⟨SlotManager.fresh.slots.set code.toNat (.user f)⟩ code .placeholder hlt2
  have hu : SlotManager.unbind ⟨SlotManager.fresh.slots.set code.toNat (.user f)⟩ code
      = .ok ⟨(SlotManager.fresh.slots.set code.toNat (.user f)).set
          code.toNat .placeholder⟩ := by
    unfold SlotManager.unbind
    rw [if_pos ⟨h32, h255⟩, hat1]
  have hb2 : SlotManager.bind ⟨(SlotManager.fresh.slots.set code.toNat (.user f)).set
        code.toNat .placeholder⟩ code g2
      = .ok ⟨((SlotManager.fresh.slots.set code.toNat (.user f)).set
          code.toNat .placeholder).set code.toNat (.user g2)⟩ := by
    unfold SlotManager.bind
    rw [if_pos ⟨h32, h255⟩, if_pos hg, hat2]
  have hat3 : (SlotManager.mk (((SlotManager.fresh.slots.set code.toNat (.user f)).set
      code.toNat SlotVal.placeholder).set code.toNat (.user g2))).slotAt code = .user g2 :=
    slotAt_set_self ⟨(SlotManager.fresh.slots.set code.toNat (.user f)).set
      code.toNat .placeholder⟩ code (.user g2) (by simpa using hlt2)
  refine ⟨?_, ?_, ?_, ?_, ?_⟩
  · rw [hb1]
    simp only [Except.map, hat1]
  · rw [hb1]
    simp only [Except.bind]
    unfold SlotManager.bind
    rw [if_pos ⟨h32, h255⟩, if_pos hg, hat1]
  · simp only [hb1, Except.bind, hu, hb2, Except.map, hat3]
  · unfold SlotManager.bind
    rw [if_neg (by omega)]
  · unfold SlotManager.bind
    rw [if_pos ⟨h32, h255⟩, if_neg (by rw [hbad]; exact Bool.false_ne_true)]

/-- Witness for `bind_unbind_lifecycle` at code 40, rejected code 1, and a
non-callable handler. -/
theorem bind_unbind_lifecycle_witness :
    (SlotManager.fresh.bind 40 ⟨10, true, .ok ()⟩).map (fun sm => sm.slotAt 40)
        = .ok (.user ⟨10, true, .ok ()⟩)
    ∧ (SlotManager.fresh.bind 40 ⟨10, true, .ok ()⟩).bind
        (fun sm => sm.bind 40 ⟨11, true, .ok ()⟩) = .error .slotAlreadyUsed
    ∧ (((SlotManager.fresh.bind 40 ⟨10, true, .ok ()⟩).bind (fun sm => sm.unbind 40)).bind
        (fun sm => sm.bind 40 ⟨11, true, .ok ()⟩)).map (fun sm => sm.slotAt 40)
        = .ok (.user ⟨11, true, .ok ()⟩)
    ∧ SlotManager.fresh.bind 1 ⟨10, true, .ok ()⟩ = .error .indexError
    ∧ SlotManager.fresh.bind 40 ⟨12, false, .ok ()⟩ = .error .taskNotCallable :=
  bind_unbind_lifecycle 40 1 ⟨10, true, .ok ()⟩ ⟨11, true, .ok ()⟩ ⟨12, false, .ok ()⟩
    (by decide) rfl rfl rfl (by decide)

/-- C7 (code bug): the range and reset parts of the claim hold — `unbind`
outside 32–254 fails with `IndexError`, and `unbind` of a bound code
succeeds and resets the slot to the placeholder — but on an unbound user
code `unbind` evaluates the undefined name `EmptySlotErrorr` and so raises
`NameError`, not the `EmptySlotError` the claim (and the code's own
`EmptySlotError` class) intends. -/
theorem unbind_empty_slot_bug :
    SlotManager.fresh.unbind 40 = .error .nameError
    ∧ SlotManager.fresh.unbind 40 ≠ .error .emptySlot
    ∧ SlotManager.fresh.unbind 300 = .error .indexError
    ∧ SlotManager.fresh.unbind 10 = .error .indexError
    ∧ ((SlotManager.fresh.bind 40 ⟨10, true, .ok ()⟩).bind (fun sm => sm.unbind 40)).map
        (fun sm => sm.slotAt 40) = .ok .placeholder := by
  refine ⟨?_, ?_, ?_, ?_, ?_⟩ <;> decide

/-- C8 (code bug): dispatching the reserved code 3 with the body `"2"`
parses the int 2 and the handler returns normally, but the module
`TIMEOUT_MULTIPLIER` used by `Connection._readBody` is unchanged (the
handler assigned a function-local name), so the body timeout for a
10-byte frame is still `10 * 8 / 300 * 1.5`, not `10 * 8 / 300 * 2`.  The
handler accepts `None` (`"None"`) and float (`"2.5"`) literals the same
inert way, and fails with `TypeError` on a wrong-typed literal such as the
string `"'x'"`. -/
theorem apply_timeout_inert :
    SlotManager.fresh.call initGState 3 [50] = .ok initGState
    ∧ initGState.timeoutMultiplier = 3 / 2
    ∧ bodyTimeout initGState 10 = (10 * 8 / 300 : ℚ) * (3 / 2)
    ∧ bodyTimeout initGState 10 ≠ (10 * 8 / 300 : ℚ) * 2
    ∧ applyTimeOut initGState [50, 46, 53] = .ok initGState
    ∧ applyTimeOut initGState [78, 111, 110, 101] = .ok initGState
    ∧ applyTimeOut initGState [39, 120, 39] = .error (.exc .typeError) := by
  refine ⟨rfl, rfl, ?_, ?_, rfl, rfl, rfl⟩
  · unfold bodyTimeout initGState
    norm_num
  · unfold bodyTimeout initGState
    norm_num

/-- C10: assigning any `int` to `Connection.deviceID` — also one outside
0–255 such as 300 or −1 — succeeds and installs that value as the address
the read loop accepts besides broadcast 0; only a non-`int` assignment
raises `TypeError`; the documented 0–255 range is never enforced (its
`ValueError` is constructed but not raised). -/
theorem deviceID_setter_unchecked (g : GState) (n : Int) (t : Nat) (s : PyStr)
    (b : Bool) (q : ℚ) :
    setDeviceID g (.int n) = .ok { g with deviceID := n }
    ∧ ((setDeviceID g (.int n)).map (fun g2 => acceptsTarget g2 t) = .ok true
        ↔ ((t : Int) = n ∨ t = 0))
    ∧ setDeviceID g (.str s) = .error .typeError
    ∧ setDeviceID g (.bool b) = .error .typeError
    ∧ setDeviceID g (.float q) = .error .typeError
    ∧ setDeviceID g .noneVal = .error .typeError := by
  refine ⟨rfl, ?_, rfl, rfl, rfl, rfl⟩
  simp [setDeviceID, acceptsTarget, Except.map]

end LMP
